import Mathlib

/-!
Shallow embedding of the `relocate-midi` binary decoding pipeline.

The embedding follows the layer of the source that is consistent with the
current `Scanner` (crates/relocate-midi/src/scanner.rs):

* `Scanner` and its operations — scanner.rs;
* the chunk-file and header-file decoders — file/chunk/mod.rs,
  file/chunk/header.rs;
* the track-event decoder `TrackEventsFile::try_from` — file/event/track.rs;
* the validated header decoder `HeaderChunk::try_from` —
  core/chunk/header/mod.rs (with format.rs, division/fps.rs);
* the meta-event decoder `MetaEvent::try_from` — core/event/meta.rs.

Bytes are modelled as `Nat` (the Rust code operates on `u8`; every byte
produced by the decoders stays below 256, and bitwise tests such as
`byte & 0x80 == 0` are rendered as `b < 128`, which agrees with the Rust
semantics on all `u8` values).  Rust methods taking `&mut self` and
returning `Option<T>` are rendered as functions `Scanner → Option T × Scanner`
so that cursor movement on failure is observable, exactly as in the source.
-/

namespace Relocate

/-- The byte scanner of scanner.rs: a byte slice plus a cursor.  The Rust
invariant is `0 ≤ cursor ≤ bytes.len()`. -/
structure Scanner where
  bytes : List Nat
  cursor : Nat
deriving Repr, DecidableEq

namespace Scanner

/-- The subslice after the cursor (`Scanner::after`). -/
def after (s : Scanner) : List Nat := s.bytes.drop s.cursor

/-- Whether the scanner has fully consumed the byte slice (`Scanner::done`). -/
def done (s : Scanner) : Prop := s.cursor = s.bytes.length

instance (s : Scanner) : Decidable s.done := by unfold done; infer_instance

/-- Peek at the byte behind the cursor without consuming (`Scanner::peek`). -/
def peek (s : Scanner) : Option Nat := s.after.head?

/-- Consume and return the byte behind the cursor (`Scanner::eat`); on
exhausted input the cursor does not move. -/
def eat (s : Scanner) : Option Nat × Scanner :=
  match s.peek with
  | none => (none, s)
  | some b => (some b, ⟨s.bytes, s.cursor + 1⟩)

/-- Consume exactly `n` bytes as a slice (`Scanner::eat_slice`); on failure
the cursor does not move. -/
def eatSlice (s : Scanner) (n : Nat) : Option (List Nat) × Scanner :=
  if s.cursor + n ≤ s.bytes.length then
    (some (s.after.take n), ⟨s.bytes, s.cursor + n⟩)
  else (none, s)

/-- Consume a big-endian u16 (`Scanner::eat_u16_be`, via `eat_bytes::<2>`). -/
def eatU16Be (s : Scanner) : Option Nat × Scanner :=
  match s.eatSlice 2 with
  | (some [b0, b1], s') => (some (b0 * 256 + b1), s')
  | (some _, s') => (none, s')  -- unreachable: the slice has exactly 2 bytes
  | (none, s') => (none, s')

/-- Loop body of `Scanner::eat_variable_length_quantity`: at most `k` more
bytes may be consumed; `acc` is the value accumulated so far.  A byte with
the high bit clear (`b < 128`) terminates the quantity. -/
def eatVLQAux : Nat → Nat → Scanner → Option Nat × Scanner
  | 0, _, s => (none, s)
  | k + 1, acc, s =>
    match s.eat with
    | (none, s') => (none, s')
    | (some b, s') =>
      let acc' := acc * 128 + b % 128
      if b < 128 then (some acc', s') else eatVLQAux k acc' s'

/-- Consume a variable-length quantity (`Scanner::eat_variable_length_quantity`):
the loop is bounded to 4 bytes.  (The Rust accumulator is a `u32`; with at
most 4 iterations the value stays below `2^28`, so no reduction modulo
`2^32` is needed.) -/
def eatVLQ (s : Scanner) : Option Nat × Scanner := eatVLQAux 4 0 s

end Scanner

/-- The maximal run of data bytes (high bit clear) at the head of a list;
the loop of `Scanner::eat_data_bytes` consumes exactly this run. -/
def dataRun : List Nat → List Nat
  | [] => []
  | b :: t => if b < 128 then b :: dataRun t else []

/-- Consume bytes until a byte with the high bit set (`Scanner::eat_data_bytes`).
The stopping byte is not consumed; reaching the end of the slice also
succeeds, so the operation never fails. -/
def Scanner.eatDataBytes (s : Scanner) : Option (List Nat) × Scanner :=
  (some (dataRun s.after), ⟨s.bytes, s.cursor + (dataRun s.after).length⟩)

/-! ### Basic scanner lemmas -/

theorem Scanner.peek_eq_some_iff (s : Scanner) (b : Nat) :
    s.peek = some b ↔ ∃ t, s.after = b :: t := by
  unfold Scanner.peek
  cases h : s.after <;> simp [h]

theorem Scanner.peek_eq_none_iff (s : Scanner) :
    s.peek = none ↔ s.bytes.length ≤ s.cursor := by
  unfold Scanner.peek Scanner.after
  rw [List.head?_eq_none_iff, List.drop_eq_nil_iff]

theorem Scanner.eat_advances (s : Scanner) (b : Nat) (s' : Scanner)
    (h : s.eat = (some b, s')) :
    s'.bytes = s.bytes ∧ s'.cursor = s.cursor + 1 ∧ s.cursor < s.bytes.length := by
  unfold Scanner.eat at h
  cases hp : s.peek with
  | none => rw [hp] at h; simp at h
  | some c =>
    rw [hp] at h
    simp only [Prod.mk.injEq] at h
    obtain ⟨h1, h2⟩ := h
    refine ⟨by rw [← h2], by rw [← h2], ?_⟩
    by_contra hlen
    have hnone : s.peek = none := s.peek_eq_none_iff.mpr (by omega)
    rw [hnone] at hp; exact Option.noConfusion hp

theorem Scanner.eat_of_peek (s : Scanner) (b : Nat) (h : s.peek = some b) :
    s.eat = (some b, ⟨s.bytes, s.cursor + 1⟩) := by
  unfold Scanner.eat; rw [h]

theorem Scanner.eatSlice_advances (s : Scanner) (n : Nat) (l : List Nat)
    (s' : Scanner) (h : s.eatSlice n = (some l, s')) :
    s'.bytes = s.bytes ∧ s'.cursor = s.cursor + n ∧
      s.cursor + n ≤ s.bytes.length ∧ l = s.after.take n := by
  unfold Scanner.eatSlice at h
  split at h
  · simp only [Prod.mk.injEq] at h
    obtain ⟨h1, h2⟩ := h
    exact ⟨by rw [← h2], by rw [← h2], by assumption, by simpa using h1.symm⟩
  · simp at h

theorem Scanner.eatVLQAux_advances :
    ∀ (k acc : Nat) (s : Scanner) (v : Nat) (s' : Scanner),
      Scanner.eatVLQAux k acc s = (some v, s') →
      s'.bytes = s.bytes ∧ s.cursor < s'.cursor ∧ s'.cursor ≤ s.cursor + k ∧
        s.cursor < s.bytes.length := by
  intro k
  induction k with
  | zero => intro acc s v s' h; simp [Scanner.eatVLQAux] at h
  | succ k ih =>
    intro acc s v s' h
    unfold Scanner.eatVLQAux at h
    cases he : s.eat with
    | mk o s1 =>
      rw [he] at h
      cases o with
      | none => simp at h
      | some b =>
        obtain ⟨hb, hc, hlen⟩ := s.eat_advances b s1 he
        simp only at h
        split at h
        · simp only [Prod.mk.injEq] at h
          obtain ⟨h1, h2⟩ := h
          refine ⟨by rw [← h2, hb], ?_, ?_, hlen⟩
          · rw [← h2]; omega
          · rw [← h2]; omega
        · obtain ⟨hb', hc', hk', _⟩ := ih _ s1 v s' h
          exact ⟨by rw [hb', hb], by omega, by omega, hlen⟩

theorem Scanner.eatVLQ_advances (s : Scanner) (v : Nat) (s' : Scanner)
    (h : s.eatVLQ = (some v, s')) :
    s'.bytes = s.bytes ∧ s.cursor < s'.cursor ∧ s'.cursor ≤ s.cursor + 4 ∧
      s.cursor < s.bytes.length :=
  Scanner.eatVLQAux_advances 4 0 s v s' h

theorem Scanner.after_succ (s : Scanner) (b : Nat) (t : List Nat)
    (h : s.after = b :: t) :
    (Scanner.mk s.bytes (s.cursor + 1)).after = t := by
  have h2 : (Scanner.mk s.bytes (s.cursor + 1)).after = s.after.tail := by
    unfold Scanner.after
    rw [List.tail_drop]
  rw [h2, h]
  rfl

theorem Scanner.eat_none_state (s : Scanner) (s' : Scanner)
    (h : s.eat = (none, s')) : s' = s := by
  unfold Scanner.eat at h
  cases hp : s.peek <;> rw [hp] at h <;> simp_all

theorem Scanner.eatVLQAux_state :
    ∀ (k acc : Nat) (s : Scanner) (o : Option Nat) (s' : Scanner),
      Scanner.eatVLQAux k acc s = (o, s') →
      s'.bytes = s.bytes ∧ s'.cursor ≤ s.cursor + k ∧ s.cursor ≤ s'.cursor ∧
        (s.cursor ≤ s.bytes.length → s'.cursor ≤ s.bytes.length) := by
  intro k
  induction k with
  | zero =>
    intro acc s o s' h
    simp only [Scanner.eatVLQAux, Prod.mk.injEq] at h
    obtain ⟨h1, h2⟩ := h
    subst h2
    simp
  | succ k ih =>
    intro acc s o s' h
    unfold Scanner.eatVLQAux at h
    cases he : s.eat with
    | mk o1 s1 =>
      rw [he] at h
      cases o1 with
      | none =>
        have hs1 : s1 = s := s.eat_none_state s1 he
        simp only [Prod.mk.injEq] at h
        obtain ⟨h1, h2⟩ := h
        subst h2; subst hs1
        simp
      | some b =>
        obtain ⟨hb, hc, hlen⟩ := s.eat_advances b s1 he
        simp only at h
        split at h
        · simp only [Prod.mk.injEq] at h
          obtain ⟨h1, h2⟩ := h
          subst h2
          exact ⟨hb, by omega, by omega, fun _ => by omega⟩
        · obtain ⟨ihb, ihc, ihc', ihlen⟩ := ih _ s1 o s' h
          have hlen' := fun hcl : s.cursor ≤ s.bytes.length =>
            ihlen (by rw [hb, hc]; omega)
          refine ⟨by rw [ihb, hb], by omega, by omega, fun hcl => ?_⟩
          have := hlen' hcl
          rwa [hb] at this

theorem Scanner.eatVLQAux_cont (k acc : Nat) (s : Scanner) (b : Nat)
    (hb : s.peek = some b) (h128 : 128 ≤ b) :
    Scanner.eatVLQAux (k + 1) acc s =
      Scanner.eatVLQAux k (acc * 128 + b % 128) ⟨s.bytes, s.cursor + 1⟩ := by
  conv_lhs => rw [Scanner.eatVLQAux]
  rw [s.eat_of_peek b hb]
  simp [Nat.not_lt.mpr h128]

theorem Scanner.eatVLQAux_last (k acc : Nat) (s : Scanner) (b : Nat)
    (hb : s.peek = some b) (h128 : b < 128) :
    Scanner.eatVLQAux (k + 1) acc s =
      (some (acc * 128 + b % 128), ⟨s.bytes, s.cursor + 1⟩) := by
  conv_lhs => rw [Scanner.eatVLQAux]
  rw [s.eat_of_peek b hb]
  simp [h128]

theorem Scanner.eatVLQAux_none_iff :
    ∀ (k acc : Nat) (s : Scanner),
      (Scanner.eatVLQAux k acc s).1 = none ↔ ∀ b ∈ s.after.take k, 128 ≤ b := by
  intro k
  induction k with
  | zero => intro acc s; simp [Scanner.eatVLQAux]
  | succ k ih =>
    intro acc s
    cases hafter : s.after with
    | nil =>
      have hp : s.peek = none := by unfold Scanner.peek; rw [hafter]; rfl
      have he : s.eat = (none, s) := by unfold Scanner.eat; rw [hp]
      unfold Scanner.eatVLQAux
      rw [he]
      simp
    | cons b t =>
      have hp : s.peek = some b := by unfold Scanner.peek; rw [hafter]; rfl
      have ht : (Scanner.mk s.bytes (s.cursor + 1)).after = t :=
        s.after_succ b t hafter
      by_cases hblt : b < 128
      · rw [Scanner.eatVLQAux_last k acc s b hp hblt]
        have hnb : ¬ 128 ≤ b := by omega
        simp [List.take_succ_cons, hnb]
      · rw [Scanner.eatVLQAux_cont k acc s b hp (by omega)]
        rw [ih, ht]
        have hb128 : 128 ≤ b := by omega
        simp [List.take_succ_cons, hb128]

/-- Modelled from the spec: the source contains no VLQ encoder, only the
decoder; the specification defines the encoding as big-endian groups of 7
payload bits, the continuation (high) bit set on every byte except the
last, minimal length, at most 4 bytes (values up to `0x0FFFFFFF`; the
literals are `16384 = 128^2` and `2097152 = 128^3`). -/
def vlqEncode (v : Nat) : List Nat :=
  if v < 128 then [v]
  else if v < 16384 then [v / 128 + 128, v % 128]
  else if v < 2097152 then [v / 16384 + 128, v / 128 % 128 + 128, v % 128]
  else [v / 2097152 + 128, v / 16384 % 128 + 128, v / 128 % 128 + 128, v % 128]

theorem dataRun_length_le : ∀ l : List Nat, (dataRun l).length ≤ l.length := by
  intro l
  induction l with
  | nil => simp [dataRun]
  | cons b t ih =>
    unfold dataRun
    split
    · simpa using ih
    · simp

/-! ### Claims C4 and C5: the VLQ decoder -/

/-- C4: for every input byte sequence, VLQ decoding
(`Scanner::eat_variable_length_quantity`) consumes at most 4 bytes, and it
fails exactly when the input runs out while every byte seen so far still had
its continuation (high) bit set (fewer than 4 bytes, all `≥ 0x80`; this
covers the empty input), or when 4 bytes were consumed all with the
continuation bit set.  In particular `[0xFF, 0xFF, 0xFF, 0xFF]` fails (with
the cursor at 4) and `[0x80]` alone fails (with the cursor at 1). -/
theorem c4_vlq_bounded_failure (bs : List Nat) :
    (Scanner.eatVLQ ⟨bs, 0⟩).2.cursor ≤ 4 ∧
    ((Scanner.eatVLQ ⟨bs, 0⟩).1 = none ↔
      (bs.length < 4 ∧ ∀ b ∈ bs, 128 ≤ b) ∨
        (4 ≤ bs.length ∧ ∀ b ∈ bs.take 4, 128 ≤ b)) ∧
    Scanner.eatVLQ ⟨[0xFF, 0xFF, 0xFF, 0xFF], 0⟩ =
      (none, ⟨[0xFF, 0xFF, 0xFF, 0xFF], 4⟩) ∧
    Scanner.eatVLQ ⟨[0x80], 0⟩ = (none, ⟨[0x80], 1⟩) := by
  refine ⟨?_, ?_, by decide, by decide⟩
  · cases hr : Scanner.eatVLQ ⟨bs, 0⟩ with
    | mk o s' =>
      obtain ⟨_, h2, _, _⟩ := Scanner.eatVLQAux_state 4 0 ⟨bs, 0⟩ o s' hr
      simpa using h2
  · have hiff := Scanner.eatVLQAux_none_iff 4 0 ⟨bs, 0⟩
    have hafter : (Scanner.mk bs 0).after = bs := by simp [Scanner.after]
    rw [hafter] at hiff
    unfold Scanner.eatVLQ
    rw [hiff]
    by_cases hlen : bs.length < 4
    · rw [List.take_of_length_le (by omega)]
      constructor
      · intro h; exact Or.inl ⟨hlen, h⟩
      · rintro (⟨_, h⟩ | ⟨h4, _⟩)
        · exact h
        · omega
    · constructor
      · intro h; exact Or.inr ⟨by omega, h⟩
      · rintro (⟨h4, _⟩ | ⟨_, h⟩)
        · omega
        · exact h

/-- C4 witness: the theorem applied at the concrete input `[0x80, 0x0F]`
(a two-byte VLQ that decodes successfully, so the failure characterization's
right-hand side is false). -/
theorem c4_vlq_bounded_failure_witness :
    (Scanner.eatVLQ ⟨[0x80, 0x0F], 0⟩).2.cursor ≤ 4 ∧
    ((Scanner.eatVLQ ⟨[0x80, 0x0F], 0⟩).1 = none ↔
      (([0x80, 0x0F] : List Nat).length < 4 ∧ ∀ b ∈ [0x80, 0x0F], 128 ≤ b) ∨
        (4 ≤ ([0x80, 0x0F] : List Nat).length ∧
          ∀ b ∈ ([0x80, 0x0F] : List Nat).take 4, 128 ≤ b)) ∧
    Scanner.eatVLQ ⟨[0xFF, 0xFF, 0xFF, 0xFF], 0⟩ =
      (none, ⟨[0xFF, 0xFF, 0xFF, 0xFF], 4⟩) ∧
    Scanner.eatVLQ ⟨[0x80], 0⟩ = (none, ⟨[0x80], 1⟩) :=
  c4_vlq_bounded_failure [0x80, 0x0F]

/-- C5: for every value `v ≤ 0x0FFFFFFF`, decoding the minimal big-endian
VLQ encoding of `v` (with any trailing bytes) yields exactly `v` and leaves
the cursor exactly past the encoding's bytes. -/
theorem c5_vlq_roundtrip (v : Nat) (hv : v ≤ 0x0FFFFFFF) (rest : List Nat) :
    Scanner.eatVLQ ⟨vlqEncode v ++ rest, 0⟩ =
      (some v, ⟨vlqEncode v ++ rest, (vlqEncode v).length⟩) := by
  by_cases h1 : v < 128
  · have e : vlqEncode v = [v] := by unfold vlqEncode; rw [if_pos h1]
    rw [e]
    refine Eq.trans (Scanner.eatVLQAux_last 3 0 _ v rfl h1) ?_
    simp only [Prod.mk.injEq, Option.some.injEq, Scanner.mk.injEq,
      List.length_cons, List.length_nil]
    exact ⟨by omega, trivial⟩
  · by_cases h2 : v < 16384
    · have e : vlqEncode v = [v / 128 + 128, v % 128] := by
        unfold vlqEncode; rw [if_neg h1, if_pos h2]
      rw [e]
      refine Eq.trans (Scanner.eatVLQAux_cont 3 0 _ (v / 128 + 128) rfl
        (by omega)) ?_
      refine Eq.trans (Scanner.eatVLQAux_last 2 _ _ (v % 128) rfl
        (by omega)) ?_
      simp only [Prod.mk.injEq, Option.some.injEq, Scanner.mk.injEq,
        List.length_cons, List.length_nil]
      exact ⟨by omega, trivial⟩
    · by_cases h3 : v < 2097152
      · have e : vlqEncode v = [v / 16384 + 128, v / 128 % 128 + 128, v % 128] := by
          unfold vlqEncode; rw [if_neg h1, if_neg h2, if_pos h3]
        rw [e]
        refine Eq.trans (Scanner.eatVLQAux_cont 3 0 _ (v / 16384 + 128) rfl
          (by omega)) ?_
        refine Eq.trans (Scanner.eatVLQAux_cont 2 _ _ (v / 128 % 128 + 128) rfl
          (by omega)) ?_
        refine Eq.trans (Scanner.eatVLQAux_last 1 _ _ (v % 128) rfl
          (by omega)) ?_
        simp only [Prod.mk.injEq, Option.some.injEq, Scanner.mk.injEq,
          List.length_cons, List.length_nil]
        exact ⟨by omega, trivial⟩
      · have e : vlqEncode v =
            [v / 2097152 + 128, v / 16384 % 128 + 128, v / 128 % 128 + 128,
              v % 128] := by
          unfold vlqEncode
          rw [if_neg h1, if_neg h2, if_neg h3]
        rw [e]
        refine Eq.trans (Scanner.eatVLQAux_cont 3 0 _ (v / 2097152 + 128) rfl
          (by omega)) ?_
        refine Eq.trans (Scanner.eatVLQAux_cont 2 _ _ (v / 16384 % 128 + 128) rfl
          (by omega)) ?_
        refine Eq.trans (Scanner.eatVLQAux_cont 1 _ _ (v / 128 % 128 + 128) rfl
          (by omega)) ?_
        refine Eq.trans (Scanner.eatVLQAux_last 0 _ _ (v % 128) rfl
          (by omega)) ?_
        simp only [Prod.mk.injEq, Option.some.injEq, Scanner.mk.injEq,
          List.length_cons, List.length_nil]
        exact ⟨by omega, trivial⟩

/-- C5 witness: the round-trip theorem applied at the four values called out
by the specification. -/
theorem c5_vlq_roundtrip_witness :
    Scanner.eatVLQ ⟨vlqEncode 0x00 ++ [], 0⟩ =
      (some 0x00, ⟨vlqEncode 0x00 ++ [], (vlqEncode 0x00).length⟩) ∧
    Scanner.eatVLQ ⟨vlqEncode 0x80 ++ [], 0⟩ =
      (some 0x80, ⟨vlqEncode 0x80 ++ [], (vlqEncode 0x80).length⟩) ∧
    Scanner.eatVLQ ⟨vlqEncode 0x3FFF ++ [], 0⟩ =
      (some 0x3FFF, ⟨vlqEncode 0x3FFF ++ [], (vlqEncode 0x3FFF).length⟩) ∧
    Scanner.eatVLQ ⟨vlqEncode 0x0FFFFFFF ++ [], 0⟩ =
      (some 0x0FFFFFFF,
        ⟨vlqEncode 0x0FFFFFFF ++ [], (vlqEncode 0x0FFFFFFF).length⟩) :=
  ⟨c5_vlq_roundtrip 0x00 (by decide) [], c5_vlq_roundtrip 0x80 (by decide) [],
    c5_vlq_roundtrip 0x3FFF (by decide) [],
    c5_vlq_roundtrip 0x0FFFFFFF (by decide) []⟩

/-! ### The track-event decoder (`TrackEventsFile::try_from`, file/event/track.rs)

This decoder is the one assembled into the pipeline by
`Chunk::try_from` in core/chunk/mod.rs, and the only track-event decoder in
the repository whose scanner calls (`eat`, `eat_slice`, `eat_data_bytes`,
`eat_variable_length_quantity`) all exist on the current `Scanner`. -/

/-- An event at the file layer (`EventFile` in file/event/track.rs).  A meta
event's status byte is the constant `0xFF`; `kind` is its type byte.  SysEx
events record which of `0xF0`/`0xF7` framed them as `status`. -/
inductive EventFile where
  | meta (kind : Nat) (length : Nat) (data : List Nat)
  | sysEx (status : Nat) (length : Nat) (data : List Nat)
  | midi (status : Nat) (data : List Nat)
deriving Repr, DecidableEq

/-- A delta-time/event pair (`TrackEventFile` in file/event/track.rs). -/
structure TrackEventFile where
  delta_time : Nat
  event : EventFile
deriving Repr, DecidableEq

/-- `TryFromError` of file/event/track.rs. -/
inductive TrackError where
  | couldNotReadStatus
  | couldNotReadVLQ
  | couldNotReadData
  | runningStatusNotSet
deriving Repr, DecidableEq

/-- One iteration of the decode loop of `TrackEventsFile::try_from`
(file/event/track.rs): decode the delta-time VLQ, peek the event byte and
dispatch.  The result carries the decoded event (`none` in the
skip-with-warning branch for System Common `0xF1..0xF6` and System Real-Time
`0xF8..0xFE` bytes, which produce no event), the advanced scanner, and the
updated running status. -/
def decodeStep (s : Scanner) (running : Option Nat) :
    Except TrackError (Option TrackEventFile × Scanner × Option Nat) :=
  match s.eatVLQ with
  | (none, _) => .error .couldNotReadVLQ
  | (some delta, s1) =>
    match s1.peek with
    | none => .error .couldNotReadStatus
    | some b =>
      if b ≤ 0x7F then
        -- running-status continuation: the byte is not consumed as a status
        match running with
        | none => .error .runningStatusNotSet
        | some st =>
          match s1.eatDataBytes with
          | (none, _) => .error .couldNotReadData
          | (some data, s2) => .ok (some ⟨delta, .midi st data⟩, s2, some st)
      else if b ≤ 0xEF then
        -- explicit channel-voice status 0x80..=0xEF
        match s1.eat with
        | (none, _) => .error .couldNotReadStatus
        | (some st, s2) =>
          match s2.eatDataBytes with
          | (none, _) => .error .couldNotReadData
          | (some data, s3) => .ok (some ⟨delta, .midi st data⟩, s3, some st)
      else if b = 0xFF then
        -- meta event: status, type byte, VLQ length, payload
        match s1.eat with
        | (none, _) => .error .couldNotReadStatus
        | (some _, s2) =>
          match s2.eat with
          | (none, _) => .error .couldNotReadStatus
          | (some kind, s3) =>
            match s3.eatVLQ with
            | (none, _) => .error .couldNotReadVLQ
            | (some len, s4) =>
              match s4.eatSlice len with
              | (none, _) => .error .couldNotReadData
              | (some data, s5) => .ok (some ⟨delta, .meta kind len data⟩, s5, none)
      else if b = 0xF0 then
        match s1.eat with
        | (none, _) => .error .couldNotReadStatus
        | (some _, s2) =>
          match s2.eatVLQ with
          | (none, _) => .error .couldNotReadVLQ
          | (some len, s3) =>
            match s3.eatSlice len with
            | (none, _) => .error .couldNotReadData
            | (some data, s4) => .ok (some ⟨delta, .sysEx 0xF0 len data⟩, s4, none)
      else if b = 0xF7 then
        match s1.eat with
        | (none, _) => .error .couldNotReadStatus
        | (some _, s2) =>
          match s2.eatVLQ with
          | (none, _) => .error .couldNotReadVLQ
          | (some len, s3) =>
            match s3.eatSlice len with
            | (none, _) => .error .couldNotReadData
            | (some data, s4) => .ok (some ⟨delta, .sysEx 0xF7 len data⟩, s4, none)
      else
        -- System Common / System Real-Time: consume, clear running status,
        -- log a warning and skip the byte without emitting an event
        match s1.eat with
        | (none, _) => .error .couldNotReadStatus
        | (some _, s2) => .ok (none, s2, none)

theorem decodeStep_progress (s : Scanner) (run : Option Nat)
    (ev : Option TrackEventFile) (s' : Scanner) (run' : Option Nat)
    (h : decodeStep s run = .ok (ev, s', run')) :
    s'.bytes = s.bytes ∧ s.cursor < s'.cursor ∧ s.cursor < s.bytes.length := by
  unfold decodeStep at h
  cases hv : s.eatVLQ with
  | mk o1 s1 =>
    rw [hv] at h
    cases o1 with
    | none => simp at h
    | some delta =>
      obtain ⟨hb1, hlt1, _, hlen1⟩ := s.eatVLQ_advances delta s1 hv
      dsimp only at h
      cases hp : s1.peek with
      | none => rw [hp] at h; simp at h
      | some b =>
        rw [hp] at h
        dsimp only at h
        by_cases h7 : b ≤ 0x7F
        · rw [if_pos h7] at h
          cases run with
          | none => simp at h
          | some st =>
            simp only [Scanner.eatDataBytes, Except.ok.injEq,
              Prod.mk.injEq] at h
            obtain ⟨-, h2, -⟩ := h
            subst h2
            exact ⟨hb1, by dsimp only; omega, hlen1⟩
        · rw [if_neg h7] at h
          by_cases hEF : b ≤ 0xEF
          · rw [if_pos hEF] at h
            rw [Scanner.eat_of_peek s1 b hp] at h
            dsimp only at h
            simp only [Scanner.eatDataBytes, Except.ok.injEq,
              Prod.mk.injEq] at h
            obtain ⟨-, h2, -⟩ := h
            subst h2
            exact ⟨hb1, by dsimp only; omega, hlen1⟩
          · rw [if_neg hEF] at h
            by_cases hFF : b = 0xFF
            · rw [if_pos hFF] at h
              rw [Scanner.eat_of_peek s1 b hp] at h
              dsimp only at h
              cases h2 : Scanner.eat ⟨s1.bytes, s1.cursor + 1⟩ with
              | mk o2 s3 =>
                rw [h2] at h
                cases o2 with
                | none => simp at h
                | some kind =>
                  obtain ⟨hb3, hc3, _⟩ :=
                    Scanner.eat_advances _ kind s3 h2
                  dsimp only at h
                  cases h4 : s3.eatVLQ with
                  | mk o4 s4 =>
                    rw [h4] at h
                    cases o4 with
                    | none => simp at h
                    | some len =>
                      obtain ⟨hb4, _, hc4, _⟩ :=
                        Scanner.eatVLQAux_state 4 0 s3 (some len) s4 h4
                      dsimp only at h
                      cases h5 : s4.eatSlice len with
                      | mk o5 s5 =>
                        rw [h5] at h
                        cases o5 with
                        | none => simp at h
                        | some data =>
                          obtain ⟨hb5, hc5, _, _⟩ :=
                            Scanner.eatSlice_advances s4 len data s5 h5
                          simp only [Prod.mk.injEq, Except.ok.injEq] at h
                          obtain ⟨-, h6, -⟩ := h
                          subst h6
                          refine ⟨by rw [hb5, hb4, hb3]; simp [hb1], ?_, hlen1⟩
                          have hcc : s3.cursor = s1.cursor + 2 := by
                            rw [hc3]
                          omega
            · rw [if_neg hFF] at h
              by_cases hF0 : b = 0xF0
              · rw [if_pos hF0] at h
                rw [Scanner.eat_of_peek s1 b hp] at h
                dsimp only at h
                cases h4 : Scanner.eatVLQ ⟨s1.bytes, s1.cursor + 1⟩ with
                | mk o4 s4 =>
                  rw [h4] at h
                  cases o4 with
                  | none => simp at h
                  | some len =>
                    obtain ⟨hb4, _, hc4, _⟩ :=
                      Scanner.eatVLQAux_state 4 0 _ (some len) s4 h4
                    dsimp only at h
                    cases h5 : s4.eatSlice len with
                    | mk o5 s5 =>
                      rw [h5] at h
                      cases o5 with
                      | none => simp at h
                      | some data =>
                        obtain ⟨hb5, hc5, _, _⟩ :=
                          Scanner.eatSlice_advances s4 len data s5 h5
                        simp only [Prod.mk.injEq, Except.ok.injEq] at h
                        obtain ⟨-, h6, -⟩ := h
                        subst h6
                        refine ⟨by rw [hb5, hb4]; simp [hb1], ?_, hlen1⟩
                        simp at hc4
                        omega
              · rw [if_neg hF0] at h
                by_cases hF7 : b = 0xF7
                · rw [if_pos hF7] at h
                  rw [Scanner.eat_of_peek s1 b hp] at h
                  dsimp only at h
                  cases h4 : Scanner.eatVLQ ⟨s1.bytes, s1.cursor + 1⟩ with
                  | mk o4 s4 =>
                    rw [h4] at h
                    cases o4 with
                    | none => simp at h
                    | some len =>
                      obtain ⟨hb4, _, hc4, _⟩ :=
                        Scanner.eatVLQAux_state 4 0 _ (some len) s4 h4
                      dsimp only at h
                      cases h5 : s4.eatSlice len with
                      | mk o5 s5 =>
                        rw [h5] at h
                        cases o5 with
                        | none => simp at h
                        | some data =>
                          obtain ⟨hb5, hc5, _, _⟩ :=
                            Scanner.eatSlice_advances s4 len data s5 h5
                          simp only [Prod.mk.injEq, Except.ok.injEq] at h
                          obtain ⟨-, h6, -⟩ := h
                          subst h6
                          refine ⟨by rw [hb5, hb4]; simp [hb1], ?_, hlen1⟩
                          simp at hc4
                          omega
                · rw [if_neg hF7] at h
                  rw [Scanner.eat_of_peek s1 b hp] at h
                  dsimp only at h
                  simp only [Prod.mk.injEq, Except.ok.injEq] at h
                  obtain ⟨-, h6, -⟩ := h
                  subst h6
                  exact ⟨hb1, by dsimp only; omega, hlen1⟩

/-- The decode loop of `TrackEventsFile::try_from`, with an explicit bound
`fuel` on the number of iterations.  `trackEventsFileTryFrom` below supplies
`bytes.length + 1`, which is always sufficient because every successful step
consumes at least one byte (`decodeStep_progress`); the zero-fuel value is
never reached from there (`decodeLoopF_fuel`). -/
def decodeLoopF : Nat → Scanner → Option Nat →
    Except TrackError (List TrackEventFile)
  | 0, _, _ => .ok []
  | fuel + 1, s, running =>
    if s.done then .ok []
    else
      match decodeStep s running with
      | .error e => .error e
      | .ok (ev, s', run') =>
        match decodeLoopF fuel s' run' with
        | .error e => .error e
        | .ok rest => .ok (ev.toList ++ rest)

/-- The result of the decode loop does not depend on the fuel, provided the
fuel exceeds the number of remaining bytes. -/
theorem decodeLoopF_fuel :
    ∀ (fuel fuel' : Nat) (s : Scanner) (run : Option Nat),
      s.bytes.length - s.cursor < fuel → s.bytes.length - s.cursor < fuel' →
      decodeLoopF fuel s run = decodeLoopF fuel' s run := by
  intro fuel
  induction fuel with
  | zero => intro fuel' s run h _; omega
  | succ fuel ih =>
    intro fuel' s run h h'
    cases fuel' with
    | zero => omega
    | succ f' =>
      unfold decodeLoopF
      by_cases hd : s.done
      · simp [hd]
      · simp only [hd, if_false]
        cases hs : decodeStep s run with
        | error e => rfl
        | ok triple =>
          obtain ⟨ev, s', run'⟩ := triple
          obtain ⟨hb, hc, hcl⟩ := decodeStep_progress s run ev s' run' hs
          have hm : s'.bytes.length - s'.cursor < fuel := by rw [hb]; omega
          have hm' : s'.bytes.length - s'.cursor < f' := by rw [hb]; omega
          dsimp only
          rw [ih f' s' run' hm hm']

/-- `TrackEventsFile::try_from` (file/event/track.rs) on the track chunk's
event bytes: run the decode loop from cursor 0 with no running status. -/
def trackEventsFileTryFrom (bytes : List Nat) :
    Except TrackError (List TrackEventFile) :=
  decodeLoopF (bytes.length + 1) ⟨bytes, 0⟩ none

/-! ### Characterizations of the decode-step branches -/

theorem decodeStep_runningData_eq (s : Scanner) (st delta : Nat)
    (s1 : Scanner) (b : Nat) (hv : s.eatVLQ = (some delta, s1))
    (hp : s1.peek = some b) (h7 : b ≤ 0x7F) :
    decodeStep s (some st) =
      .ok (some ⟨delta, .midi st (dataRun (s1.bytes.drop s1.cursor))⟩,
        ⟨s1.bytes, s1.cursor + (dataRun (s1.bytes.drop s1.cursor)).length⟩,
        some st) := by
  unfold decodeStep
  rw [hv]
  dsimp only
  rw [hp]
  dsimp only
  rw [if_pos h7]
  rfl

theorem decodeStep_runningNone (s : Scanner) (delta : Nat)
    (s1 : Scanner) (b : Nat) (hv : s.eatVLQ = (some delta, s1))
    (hp : s1.peek = some b) (h7 : b ≤ 0x7F) :
    decodeStep s none = .error .runningStatusNotSet := by
  unfold decodeStep
  rw [hv]
  dsimp only
  rw [hp]
  dsimp only
  rw [if_pos h7]

theorem decodeStep_explicit_eq (s : Scanner) (run : Option Nat) (delta : Nat)
    (s1 : Scanner) (b : Nat) (hv : s.eatVLQ = (some delta, s1))
    (hp : s1.peek = some b) (h80 : 0x80 ≤ b) (hEF : b ≤ 0xEF) :
    decodeStep s run =
      .ok (some ⟨delta, .midi b (dataRun (s1.bytes.drop (s1.cursor + 1)))⟩,
        ⟨s1.bytes,
          s1.cursor + 1 + (dataRun (s1.bytes.drop (s1.cursor + 1))).length⟩,
        some b) := by
  unfold decodeStep
  rw [hv]
  dsimp only
  rw [hp]
  dsimp only
  rw [if_neg (by omega), if_pos hEF, Scanner.eat_of_peek s1 b hp]
  rfl

theorem decodeStep_else_eq (s : Scanner) (run : Option Nat) (delta : Nat)
    (s1 : Scanner) (b : Nat) (hv : s.eatVLQ = (some delta, s1))
    (hp : s1.peek = some b) (h7 : ¬ b ≤ 0x7F) (hEF : ¬ b ≤ 0xEF)
    (hFF : b ≠ 0xFF) (hF0 : b ≠ 0xF0) (hF7 : b ≠ 0xF7) :
    decodeStep s run = .ok (none, ⟨s1.bytes, s1.cursor + 1⟩, none) := by
  unfold decodeStep
  rw [hv]
  dsimp only
  rw [hp]
  dsimp only
  rw [if_neg h7, if_neg hEF, if_neg hFF, if_neg hF0, if_neg hF7,
    Scanner.eat_of_peek s1 b hp]

theorem decodeStep_skip_eq (s : Scanner) (run : Option Nat) (delta : Nat)
    (s1 : Scanner) (b : Nat) (hv : s.eatVLQ = (some delta, s1))
    (hp : s1.peek = some b)
    (hb : (0xF1 ≤ b ∧ b ≤ 0xF6) ∨ (0xF8 ≤ b ∧ b ≤ 0xFE)) :
    decodeStep s run = .ok (none, ⟨s1.bytes, s1.cursor + 1⟩, none) :=
  decodeStep_else_eq s run delta s1 b hv hp (by omega) (by omega)
    (by omega) (by omega) (by omega)

theorem decodeStep_resets (s : Scanner) (run : Option Nat) (delta : Nat)
    (s1 : Scanner) (b : Nat) (hv : s.eatVLQ = (some delta, s1))
    (hp : s1.peek = some b) (hb : b = 0xFF ∨ b = 0xF0 ∨ b = 0xF7)
    (ev : Option TrackEventFile) (s2 : Scanner) (run2 : Option Nat)
    (hok : decodeStep s run = .ok (ev, s2, run2)) : run2 = none := by
  unfold decodeStep at hok
  rw [hv] at hok
  dsimp only at hok
  rw [hp] at hok
  dsimp only at hok
  have hn7 : ¬ b ≤ 0x7F := by omega
  have hnEF : ¬ b ≤ 0xEF := by omega
  rw [if_neg hn7, if_neg hnEF] at hok
  rcases hb with hb | hb | hb
  · rw [if_pos hb, Scanner.eat_of_peek s1 b hp] at hok
    dsimp only at hok
    cases h2 : Scanner.eat ⟨s1.bytes, s1.cursor + 1⟩ with
    | mk o2 s3 =>
      rw [h2] at hok
      cases o2 with
      | none => simp at hok
      | some kind =>
        dsimp only at hok
        cases h4 : s3.eatVLQ with
        | mk o4 s4 =>
          rw [h4] at hok
          cases o4 with
          | none => simp at hok
          | some len =>
            dsimp only at hok
            cases h5 : s4.eatSlice len with
            | mk o5 s5 =>
              rw [h5] at hok
              cases o5 with
              | none => simp at hok
              | some data =>
                simp only [Prod.mk.injEq, Except.ok.injEq] at hok
                exact hok.2.2.symm
  · have hnFF : b ≠ 0xFF := by omega
    rw [if_neg hnFF, if_pos hb, Scanner.eat_of_peek s1 b hp] at hok
    dsimp only at hok
    cases h4 : Scanner.eatVLQ ⟨s1.bytes, s1.cursor + 1⟩ with
    | mk o4 s4 =>
      rw [h4] at hok
      cases o4 with
      | none => simp at hok
      | some len =>
        dsimp only at hok
        cases h5 : s4.eatSlice len with
        | mk o5 s5 =>
          rw [h5] at hok
          cases o5 with
          | none => simp at hok
          | some data =>
            simp only [Prod.mk.injEq, Except.ok.injEq] at hok
            exact hok.2.2.symm
  · have hnFF : b ≠ 0xFF := by omega
    have hnF0 : b ≠ 0xF0 := by omega
    rw [if_neg hnFF, if_neg hnF0, if_pos hb,
      Scanner.eat_of_peek s1 b hp] at hok
    dsimp only at hok
    cases h4 : Scanner.eatVLQ ⟨s1.bytes, s1.cursor + 1⟩ with
    | mk o4 s4 =>
      rw [h4] at hok
      cases o4 with
      | none => simp at hok
      | some len =>
        dsimp only at hok
        cases h5 : s4.eatSlice len with
        | mk o5 s5 =>
          rw [h5] at hok
          cases o5 with
          | none => simp at hok
          | some data =>
            simp only [Prod.mk.injEq, Except.ok.injEq] at hok
            exact hok.2.2.symm

theorem decodeStep_keeps_none (s : Scanner) (delta : Nat)
    (s1 : Scanner) (b : Nat) (hv : s.eatVLQ = (some delta, s1))
    (hp : s1.peek = some b) (hnx : ¬ (0x80 ≤ b ∧ b ≤ 0xEF))
    (ev : Option TrackEventFile) (s2 : Scanner) (run2 : Option Nat)
    (hok : decodeStep s none = .ok (ev, s2, run2)) : run2 = none := by
  by_cases h7 : b ≤ 0x7F
  · rw [decodeStep_runningNone s delta s1 b hv hp h7] at hok
    exact absurd hok (by simp)
  · by_cases hFF : b = 0xFF
    · exact decodeStep_resets s none delta s1 b hv hp (Or.inl hFF)
        ev s2 run2 hok
    · by_cases hF0 : b = 0xF0
      · exact decodeStep_resets s none delta s1 b hv hp (Or.inr (Or.inl hF0))
          ev s2 run2 hok
      · by_cases hF7 : b = 0xF7
        · exact decodeStep_resets s none delta s1 b hv hp
            (Or.inr (Or.inr hF7)) ev s2 run2 hok
        · rw [decodeStep_else_eq s none delta s1 b hv hp h7 (by omega)
              hFF hF0 hF7] at hok
          simp only [Prod.mk.injEq, Except.ok.injEq] at hok
          exact hok.2.2.symm

/-! ### Claims C1, C3, C6, C7: the track-event decoder -/

/-- C1 counterexample: the track decode of `[0x00, 0xF8]` — a zero
delta-time followed by the System Real-Time byte `0xF8` — succeeds with an
empty event list instead of failing with an invalid-status error, refuting
the claim that a byte in `0xF1..0xF6`/`0xF8..0xFE` fails the whole track
decode. -/
theorem c1_counterexample : trackEventsFileTryFrom [0x00, 0xF8] = .ok [] := by
  rfl

/-- C1 (amended): whenever the first byte of an event (after its delta-time
VLQ) lies in `0xF1..0xF6` or `0xF8..0xFE`, the decoder consumes exactly that
byte, clears the running status, emits no event, and the decode step
succeeds so the loop continues (the Rust source logs a warning and
`continue`s). -/
theorem c1_sys_common_realtime_skipped (s : Scanner) (run : Option Nat)
    (delta : Nat) (s1 : Scanner) (b : Nat)
    (hv : s.eatVLQ = (some delta, s1)) (hp : s1.peek = some b)
    (hb : (0xF1 ≤ b ∧ b ≤ 0xF6) ∨ (0xF8 ≤ b ∧ b ≤ 0xFE)) :
    decodeStep s run = .ok (none, ⟨s1.bytes, s1.cursor + 1⟩, none) :=
  decodeStep_skip_eq s run delta s1 b hv hp hb

/-- C1 witness: the amended theorem applied to the concrete track bytes
`[0x00, 0xF8]`. -/
theorem c1_sys_common_realtime_skipped_witness :
    decodeStep ⟨[0x00, 0xF8], 0⟩ none = .ok (none, ⟨[0x00, 0xF8], 2⟩, none) :=
  c1_sys_common_realtime_skipped ⟨[0x00, 0xF8], 0⟩ none 0 ⟨[0x00, 0xF8], 1⟩
    0xF8 rfl rfl (Or.inr (by omega))

/-- C3 counterexample: the track decode of `[0x00, 0x90, 0x40]` — a
Note-On status `0x90` followed by a single data byte — succeeds with an
event carrying one data byte, instead of consuming exactly 2 data bytes or
failing with a data-truncation error as the claim states. -/
theorem c3_counterexample :
    trackEventsFileTryFrom [0x00, 0x90, 0x40] =
      .ok [⟨0, .midi 0x90 [0x40]⟩] := by
  rfl

/-- C3 (amended): for every channel-voice event (explicit status
`0x80..0xEF` or running status), the decoder consumes as the event's data
the maximal run of following bytes with the high bit clear — however many
there are, regardless of the status nibble — stopping at the next byte
`≥ 0x80` or the end of the track data; the step succeeds and never reports
a data-truncation error (`Scanner::eat_data_bytes` cannot fail). -/
theorem c3_channel_voice_greedy_data (s : Scanner) (run : Option Nat)
    (delta : Nat) (s1 : Scanner) (b : Nat)
    (hv : s.eatVLQ = (some delta, s1)) (hp : s1.peek = some b) :
    (0x80 ≤ b → b ≤ 0xEF →
      decodeStep s run =
        .ok (some ⟨delta, .midi b (dataRun (s1.bytes.drop (s1.cursor + 1)))⟩,
          ⟨s1.bytes,
            s1.cursor + 1 + (dataRun (s1.bytes.drop (s1.cursor + 1))).length⟩,
          some b)) ∧
    (∀ st, b ≤ 0x7F → run = some st →
      decodeStep s run =
        .ok (some ⟨delta, .midi st (dataRun (s1.bytes.drop s1.cursor))⟩,
          ⟨s1.bytes, s1.cursor + (dataRun (s1.bytes.drop s1.cursor)).length⟩,
          some st)) := by
  refine ⟨fun h80 hEF => decodeStep_explicit_eq s run delta s1 b hv hp h80 hEF,
    fun st h7 hrun => ?_⟩
  rw [hrun]
  exact decodeStep_runningData_eq s st delta s1 b hv hp h7

/-- C3 witness: the amended theorem applied to `[0x00, 0x90, 0x40]`: the
Note-On event consumes the single available data byte. -/
theorem c3_channel_voice_greedy_data_witness :
    decodeStep ⟨[0x00, 0x90, 0x40], 0⟩ none =
      .ok (some ⟨0, .midi 0x90 [0x40]⟩, ⟨[0x00, 0x90, 0x40], 3⟩,
        some 0x90) :=
  (c3_channel_voice_greedy_data ⟨[0x00, 0x90, 0x40], 0⟩ none 0
    ⟨[0x00, 0x90, 0x40], 1⟩ 0x90 rfl rfl).1 (by omega) (by omega)

/-- C6: at an event position whose first byte after the delta-time is in
`0x00..0x7F`: with a running status `st` set, the decoder emits a
channel-voice event carrying `st` and reads the data bytes starting at that
same unconsumed byte; with no running status set, the step fails with the
running-status error.  The spec's running-status example decodes to two
events sharing status `0x90` (the second event's delta-time `0x81 0x00`
keeps its first data byte `0x45` in running-status position). -/
theorem c6_running_status (s : Scanner) (delta : Nat) (s1 : Scanner)
    (b : Nat) (hv : s.eatVLQ = (some delta, s1)) (hp : s1.peek = some b)
    (h7 : b ≤ 0x7F) :
    (∀ st, decodeStep s (some st) =
      .ok (some ⟨delta, .midi st (dataRun (s1.bytes.drop s1.cursor))⟩,
        ⟨s1.bytes, s1.cursor + (dataRun (s1.bytes.drop s1.cursor)).length⟩,
        some st)) ∧
    decodeStep s none = .error .runningStatusNotSet ∧
    trackEventsFileTryFrom [0x00, 0x90, 0x40, 0x60, 0x81, 0x00, 0x45] =
      .ok [⟨0, .midi 0x90 [0x40, 0x60]⟩, ⟨0x80, .midi 0x90 [0x45]⟩] :=
  ⟨fun st => decodeStep_runningData_eq s st delta s1 b hv hp h7,
    decodeStep_runningNone s delta s1 b hv hp h7, by rfl⟩

/-- C6 witness: the theorem applied to the track bytes `[0x00, 0x40]` with
running status `0x90` (event emitted with the carried status) and with no
running status (running-status error). -/
theorem c6_running_status_witness :
    decodeStep ⟨[0x00, 0x40], 0⟩ (some 0x90) =
      .ok (some ⟨0, .midi 0x90 [0x40]⟩, ⟨[0x00, 0x40], 2⟩, some 0x90) ∧
    decodeStep ⟨[0x00, 0x40], 0⟩ none = .error .runningStatusNotSet :=
  ⟨(c6_running_status ⟨[0x00, 0x40], 0⟩ 0 ⟨[0x00, 0x40], 1⟩ 0x40 rfl rfl
      (by omega)).1 0x90,
    (c6_running_status ⟨[0x00, 0x40], 0⟩ 0 ⟨[0x00, 0x40], 1⟩ 0x40 rfl rfl
      (by omega)).2.1⟩

/-- C7: decoding a Meta event (`0xFF`) or a SysEx event (`0xF0`/`0xF7`)
sets the carried running status to absent; an event position starting with
a byte in `0x00..0x7F` while the running status is absent fails with the
running-status error; and every successful step that does not carry an
explicit channel-voice status byte (`0x80..0xEF`) keeps an absent running
status absent — so a data byte after a Meta/SysEx event with no intervening
explicit status fails the track decode, as on the concrete track
`[0x00, 0xFF, 0x2F, 0x00, 0x00, 0x40]` (End-of-Track meta event, then a
running-status byte `0x40`). -/
theorem c7_meta_sysex_reset_running (s : Scanner) (run : Option Nat)
    (delta : Nat) (s1 : Scanner) (b : Nat)
    (hv : s.eatVLQ = (some delta, s1)) (hp : s1.peek = some b) :
    ((b = 0xFF ∨ b = 0xF0 ∨ b = 0xF7) → ∀ ev s2 run2,
      decodeStep s run = .ok (ev, s2, run2) → run2 = none) ∧
    (b ≤ 0x7F → decodeStep s none = .error .runningStatusNotSet) ∧
    (¬ (0x80 ≤ b ∧ b ≤ 0xEF) → ∀ ev s2 run2,
      decodeStep s none = .ok (ev, s2, run2) → run2 = none) ∧
    trackEventsFileTryFrom [0x00, 0xFF, 0x2F, 0x00, 0x00, 0x40] =
      .error .runningStatusNotSet :=
  ⟨fun hb ev s2 run2 hok =>
      decodeStep_resets s run delta s1 b hv hp hb ev s2 run2 hok,
    fun h7 => decodeStep_runningNone s delta s1 b hv hp h7,
    fun hnx ev s2 run2 hok =>
      decodeStep_keeps_none s delta s1 b hv hp hnx ev s2 run2 hok,
    by rfl⟩

/-- C7 witness: the theorem applied to the concrete track bytes
`[0x05, 0x33]` (delta-time 5, then a data byte with no running status). -/
theorem c7_meta_sysex_reset_running_witness :
    decodeStep ⟨[0x05, 0x33], 0⟩ none = .error .runningStatusNotSet :=
  (c7_meta_sysex_reset_running ⟨[0x05, 0x33], 0⟩ none 5 ⟨[0x05, 0x33], 1⟩
    0x33 rfl rfl).2.1 (by omega)

/-! ### Header decoding (file/chunk/header.rs and core/chunk/header) -/

/-- A raw chunk as produced by the chunk splitter (`ChunkFile` in
file/chunk/mod.rs): 4 tag bytes, the 32-bit big-endian declared length
(already decoded to a number, as its consumers use it), and the data
bytes. -/
structure ChunkFile where
  kind : List Nat
  length : Nat
  data : List Nat
deriving Repr, DecidableEq

/-- The header tag `b"MThd"` (`HEADER_CHUNK_KIND`). -/
def MTHD : List Nat := [0x4D, 0x54, 0x68, 0x64]

/-- `TryFromError` of file/chunk/header.rs. -/
inductive HeaderFileError where
  | invalidKind
  | invalidLength
  | couldNotReadFormat
  | couldNotReadTrackCount
  | couldNotReadDivision
  | scannerNotDone
deriving Repr, DecidableEq

/-- `HeaderChunkFile` (file/chunk/header.rs): the three 2-byte fields. -/
structure HeaderChunkFile where
  format : List Nat
  tracks_count : List Nat
  division : List Nat
deriving Repr, DecidableEq

/-- `HeaderChunkFile::try_from(&ChunkFile)` (file/chunk/header.rs): require
the MThd tag and a declared length of exactly 6, read 2+2+2 bytes through a
scanner over the data, and require the scanner exhausted afterwards. -/
def headerChunkFileTryFrom (c : ChunkFile) :
    Except HeaderFileError HeaderChunkFile :=
  if c.kind ≠ MTHD then .error .invalidKind
  else if c.length ≠ 6 then .error .invalidLength
  else
    match (Scanner.mk c.data 0).eatSlice 2 with
    | (none, _) => .error .couldNotReadFormat
    | (some format, s1) =>
      match s1.eatSlice 2 with
      | (none, _) => .error .couldNotReadTrackCount
      | (some tracks, s2) =>
        match s2.eatSlice 2 with
        | (none, _) => .error .couldNotReadDivision
        | (some division, s3) =>
          if s3.done then .ok ⟨format, tracks, division⟩
          else .error .scannerNotDone

/-- `Format` (core/chunk/header/format.rs). -/
inductive Format where
  | singleMultiChannelTrack
  | simultaneousTracks
  | sequentiallyIndependentSingleTrackPatterns
deriving Repr, DecidableEq

/-- `TryFromError` of core/chunk/header/format.rs. -/
inductive FormatError where
  | unknownFormatBytes
deriving Repr, DecidableEq

/-- `Format::try_from(&[u8; 2])` (core/chunk/header/format.rs). -/
def formatTryFrom : List Nat → Except FormatError Format
  | [0x00, 0x00] => .ok .singleMultiChannelTrack
  | [0x00, 0x01] => .ok .simultaneousTracks
  | [0x00, 0x02] => .ok .sequentiallyIndependentSingleTrackPatterns
  | _ => .error .unknownFormatBytes

/-- `FPS` (core/chunk/header/division/fps.rs). -/
inductive FPS where
  | fps24
  | fps25
  | fps30Drop
  | fps30
deriving Repr, DecidableEq

/-- `TryFromError` of core/chunk/header/division/fps.rs. -/
inductive FPSError where
  | invalidFPS
deriving Repr, DecidableEq

/-- `FPS::try_from(u8)` (core/chunk/header/division/fps.rs): the byte is
read as a two's-complement `i8`, so `-24 = 232`, `-25 = 231`, `-29 = 227`,
`-30 = 226` (these are the values its unit tests use). -/
def fpsTryFrom (v : Nat) : Except FPSError FPS :=
  if v = 232 then .ok .fps24
  else if v = 231 then .ok .fps25
  else if v = 227 then .ok .fps30Drop
  else if v = 226 then .ok .fps30
  else .error .invalidFPS

/-- `Division` (description/chunk/header/division/mod.rs; the core header
imports the same two-variant division type). -/
inductive Division where
  | ticksPerQuarterNote (v : Nat)
  | timeCode (framesPerSecond : FPS) (ticksPerFrame : Nat)
deriving Repr, DecidableEq

/-- `Division::try_from([u8; 2])`: if bit 7 of the first byte is clear the
whole big-endian 16-bit value is ticks-per-quarter-note, otherwise the
first byte selects the SMPTE frame rate and the second byte is
ticks-per-frame.  The catch-all arm is unreachable: the field is a 2-byte
array in the source. -/
def divisionTryFrom : List Nat → Except FPSError Division
  | [high, low] =>
    if high < 128 then .ok (.ticksPerQuarterNote (high * 256 + low))
    else
      match fpsTryFrom high with
      | .error e => .error e
      | .ok fps => .ok (.timeCode fps low)
  | _ => .error .invalidFPS

/-- `u16::from_be_bytes` on a 2-byte field (catch-all unreachable). -/
def be16 : List Nat → Nat
  | [a, b] => a * 256 + b
  | _ => 0

/-- `TryFromError` of core/chunk/header/mod.rs. -/
inductive HeaderError where
  | invalidFormat
  | invalidDivision
  | invalidTracksCount
deriving Repr, DecidableEq

/-- `HeaderChunk` (core/chunk/header/mod.rs). -/
structure HeaderChunk where
  format : Format
  tracks_count : Nat
  division : Division
deriving Repr, DecidableEq

/-- `HeaderChunk::try_from(&HeaderChunkFile)` (core/chunk/header/mod.rs):
decode the format, the big-endian track count and the division, then
enforce the cross-field rule that the single-multi-channel-track format
carries exactly one track. -/
def headerChunkTryFrom (h : HeaderChunkFile) :
    Except HeaderError HeaderChunk :=
  match formatTryFrom h.format with
  | .error _ => .error .invalidFormat
  | .ok format =>
    let tracks_count := be16 h.tracks_count
    match divisionTryFrom h.division with
    | .error _ => .error .invalidDivision
    | .ok division =>
      if format = .singleMultiChannelTrack ∧ tracks_count ≠ 1 then
        .error .invalidTracksCount
      else .ok ⟨format, tracks_count, division⟩

theorem Scanner.eatSlice_mk_pos (data : List Nat) (c n : Nat)
    (h : c + n ≤ data.length) :
    (Scanner.mk data c).eatSlice n =
      (some ((data.drop c).take n), ⟨data, c + n⟩) := by
  unfold Scanner.eatSlice
  rw [if_pos h]
  rfl

theorem Scanner.eatSlice_mk_neg (data : List Nat) (c n : Nat)
    (h : data.length < c + n) :
    (Scanner.mk data c).eatSlice n = (none, ⟨data, c⟩) := by
  unfold Scanner.eatSlice
  rw [if_neg (by simp; omega)]

/-! ### Claims C2 and C8: header decoding -/

/-- C2 counterexample: a chunk tagged MThd with declared length 7 and 7
data bytes whose first 6 decode validly is rejected with the
invalid-length error, although the claim says header decoding succeeds
regardless of trailing data and of a declared length greater than 6. -/
theorem c2_counterexample :
    headerChunkFileTryFrom
        ⟨[0x4D, 0x54, 0x68, 0x64], 7, [0, 0, 0, 1, 0, 0x60, 0]⟩ =
      .error .invalidLength := by
  rfl

/-- C2 (amended): header-file decoding accepts only a declared length of
exactly 6 (anything else is the invalid-length error) and only exactly 6
data bytes: fewer than 6 fail with the field-specific error of whichever
field ran out (format, track count, or division), 6 succeed, and more than
6 fail with the scanner-not-done error.  (In the assembled pipeline the
splitter guarantees `data.length = length`, so the short-data errors arise
only for hand-built chunk values.) -/
theorem c2_header_requires_exact_length (len : Nat) (data : List Nat) :
    (len ≠ 6 →
      headerChunkFileTryFrom ⟨MTHD, len, data⟩ = .error .invalidLength) ∧
    (len = 6 → data.length < 2 →
      headerChunkFileTryFrom ⟨MTHD, len, data⟩ =
        .error .couldNotReadFormat) ∧
    (len = 6 → 2 ≤ data.length → data.length < 4 →
      headerChunkFileTryFrom ⟨MTHD, len, data⟩ =
        .error .couldNotReadTrackCount) ∧
    (len = 6 → 4 ≤ data.length → data.length < 6 →
      headerChunkFileTryFrom ⟨MTHD, len, data⟩ =
        .error .couldNotReadDivision) ∧
    (len = 6 → data.length = 6 →
      headerChunkFileTryFrom ⟨MTHD, len, data⟩ =
        .ok ⟨data.take 2, (data.drop 2).take 2, (data.drop 4).take 2⟩) ∧
    (len = 6 → 6 < data.length →
      headerChunkFileTryFrom ⟨MTHD, len, data⟩ =
        .error .scannerNotDone) := by
  have hkind : ¬ (MTHD ≠ MTHD) := by simp
  refine ⟨fun hlen => ?_, fun hlen hdata => ?_, fun hlen h2 h4 => ?_,
    fun hlen h4 h6 => ?_, fun hlen h6 => ?_, fun hlen h6 => ?_⟩
  · unfold headerChunkFileTryFrom
    dsimp only
    rw [if_neg hkind, if_pos hlen]
  · unfold headerChunkFileTryFrom
    dsimp only
    rw [if_neg hkind, if_neg (by omega),
      Scanner.eatSlice_mk_neg data 0 2 (by omega)]
  · unfold headerChunkFileTryFrom
    dsimp only
    rw [if_neg hkind, if_neg (by omega),
      Scanner.eatSlice_mk_pos data 0 2 (by omega)]
    dsimp only
    rw [Scanner.eatSlice_mk_neg data 2 2 (by omega)]
  · unfold headerChunkFileTryFrom
    dsimp only
    rw [if_neg hkind, if_neg (by omega),
      Scanner.eatSlice_mk_pos data 0 2 (by omega)]
    dsimp only
    rw [Scanner.eatSlice_mk_pos data 2 2 (by omega)]
    dsimp only
    rw [Scanner.eatSlice_mk_neg data 4 2 (by omega)]
  · unfold headerChunkFileTryFrom
    dsimp only
    rw [if_neg hkind, if_neg (by omega),
      Scanner.eatSlice_mk_pos data 0 2 (by omega)]
    dsimp only
    rw [Scanner.eatSlice_mk_pos data 2 2 (by omega)]
    dsimp only
    rw [Scanner.eatSlice_mk_pos data 4 2 (by omega)]
    dsimp only
    rw [if_pos (show (Scanner.mk data (4 + 2)).done by
      simp [Scanner.done]; omega)]
    simp
  · unfold headerChunkFileTryFrom
    dsimp only
    rw [if_neg hkind, if_neg (by omega),
      Scanner.eatSlice_mk_pos data 0 2 (by omega)]
    dsimp only
    rw [Scanner.eatSlice_mk_pos data 2 2 (by omega)]
    dsimp only
    rw [Scanner.eatSlice_mk_pos data 4 2 (by omega)]
    dsimp only
    rw [if_neg (show ¬ (Scanner.mk data (4 + 2)).done by
      simp [Scanner.done]; omega)]

/-- C2 witness: the amended theorem applied at length 6 with the 6 data
bytes `[0, 0, 0, 1, 0, 0x60]` (success) and at length 7 (invalid-length
error). -/
theorem c2_header_requires_exact_length_witness :
    headerChunkFileTryFrom ⟨MTHD, 6, [0, 0, 0, 1, 0, 0x60]⟩ =
      .ok ⟨[0, 0], [0, 1], [0, 0x60]⟩ ∧
    headerChunkFileTryFrom ⟨MTHD, 7, [0, 0, 0, 1, 0, 0x60]⟩ =
      .error .invalidLength :=
  ⟨(c2_header_requires_exact_length 6 [0, 0, 0, 1, 0, 0x60]).2.2.2.2.1
      rfl rfl,
    (c2_header_requires_exact_length 7 [0, 0, 0, 1, 0, 0x60]).1
      (by omega)⟩

/-- C8: a header whose format bytes are `[0x00, 0x00]`
(SingleMultiChannelTrack) but whose big-endian track count is not 1 fails
with the tracks-count error, distinct from the unknown-format and
invalid-division errors, provided the division bytes decode validly (the
division is decoded before the cross-field check). -/
theorem c8_single_track_cross_check (t0 t1 : Nat) (div : List Nat)
    (ht : t0 * 256 + t1 ≠ 1) (hd : ∃ dv, divisionTryFrom div = .ok dv) :
    headerChunkTryFrom ⟨[0x00, 0x00], [t0, t1], div⟩ =
      .error .invalidTracksCount ∧
    HeaderError.invalidTracksCount ≠ HeaderError.invalidFormat ∧
    HeaderError.invalidTracksCount ≠ HeaderError.invalidDivision := by
  obtain ⟨dv, hdv⟩ := hd
  refine ⟨?_, by simp, by simp⟩
  unfold headerChunkTryFrom
  dsimp only [formatTryFrom]
  rw [hdv]
  dsimp only
  rw [if_pos ⟨rfl, by simpa [be16] using ht⟩]

/-- C8 witness: the theorem applied to format `[0x00, 0x00]`, track count
`[0x00, 0x02]` and division `[0x00, 0x60]` (96 ticks per quarter note). -/
theorem c8_single_track_cross_check_witness :
    headerChunkTryFrom ⟨[0x00, 0x00], [0x00, 0x02], [0x00, 0x60]⟩ =
      .error .invalidTracksCount ∧
    HeaderError.invalidTracksCount ≠ HeaderError.invalidFormat ∧
    HeaderError.invalidTracksCount ≠ HeaderError.invalidDivision :=
  c8_single_track_cross_check 0x00 0x02 [0x00, 0x60] (by omega)
    ⟨.ticksPerQuarterNote 0x60, rfl⟩

/-! ### The meta-event decoder (core/event/meta.rs) -/

/-- `MetaEventFile` (file/event/track.rs): the status byte (the track
decoder always stores the constant `0xFF` here), the type byte `kind`, the
declared VLQ length, and the payload bytes. -/
structure MetaEventFile where
  status : Nat
  kind : Nat
  length : Nat
  data : List Nat
deriving Repr, DecidableEq

/-- `MetaEvent` (core/event/meta.rs).  Text-bearing variants keep the raw
payload bytes (the Rust converts them with the lossy UTF-8 decoder, which
never fails).  `midiChannelPref` renders the source's MIDI-channel-prefix
variant; the key-signature count is kept as the raw byte (the Rust reads it
as an `i8`). -/
inductive MetaEvent where
  | sequenceNumber (n : Nat)
  | textEvent (data : List Nat)
  | copyrightNotice (data : List Nat)
  | sequenceOrTrackName (data : List Nat)
  | instrumentName (data : List Nat)
  | lyric (data : List Nat)
  | marker (data : List Nat)
  | cuePoint (data : List Nat)
  | midiChannelPref (channel : Nat)
  | midiPort (port : Nat)
  | endOfTrack
  | setTempo (tempo : Nat)
  | smpteOffset (hours minutes seconds frames fractionalFrames : Nat)
  | timeSignature (nn dd cc bb : Nat)
  | keySignature (sharpsFlats majorMinor : Nat)
deriving Repr, DecidableEq

/-- `TryFromError` of core/event/meta.rs. -/
inductive MetaError where
  | invalidEventKind
  | invalidNumber
  | invalidData
  | invalidScannerState
  | invalidStatus (b : Nat)
deriving Repr, DecidableEq

/-- `MetaEvent::try_from(&MetaEventFile)` (core/event/meta.rs).  The Rust
function reads `value.status` and `value.data` only: the dispatch table
keys on the `status` field — the field the track decoder pins to the
constant `0xFF` — and the `kind` (type byte) and `length` fields are never
read.  Fixed-shape variants re-scan `data` and demand the scanner be
exhausted afterwards; the catch-all list arms inside `0x51`, `0x54` and
`0x58` are unreachable (the slice has exactly the requested length). -/
def metaEventTryFrom (v : MetaEventFile) : Except MetaError MetaEvent :=
  let status := v.status
  let data := v.data
  if status = 0x00 then
    match (Scanner.mk data 0).eatU16Be with
    | (none, _) => .error .invalidNumber
    | (some n, s1) =>
      if s1.done then .ok (.sequenceNumber n) else .error .invalidScannerState
  else if status = 0x01 ∨ (0x08 ≤ status ∧ status < 0x10) then
    .ok (.textEvent data)
  else if status = 0x02 then .ok (.copyrightNotice data)
  else if status = 0x03 then .ok (.sequenceOrTrackName data)
  else if status = 0x04 then .ok (.instrumentName data)
  else if status = 0x05 then .ok (.lyric data)
  else if status = 0x06 then .ok (.marker data)
  else if status = 0x07 then .ok (.cuePoint data)
  else if status = 0x20 then
    match (Scanner.mk data 0).eat with
    | (none, _) => .error .invalidData
    | (some channel, s1) =>
      if s1.done then .ok (.midiChannelPref channel)
      else .error .invalidScannerState
  else if status = 0x21 then
    match (Scanner.mk data 0).eat with
    | (none, _) => .error .invalidData
    | (some port, s1) =>
      if s1.done then .ok (.midiPort port) else .error .invalidScannerState
  else if status = 0x2F then .ok .endOfTrack
  else if status = 0x51 then
    match (Scanner.mk data 0).eatSlice 3 with
    | (none, _) => .error .invalidData
    | (some l, s1) =>
      match l with
      | [t1, t2, t3] =>
        if s1.done then .ok (.setTempo (t1 * 65536 + t2 * 256 + t3))
        else .error .invalidScannerState
      | _ => .error .invalidData
  else if status = 0x54 then
    match (Scanner.mk data 0).eatSlice 5 with
    | (none, _) => .error .invalidData
    | (some l, s1) =>
      match l with
      | [hh, mn, se, fr, ff] =>
        if s1.done then .ok (.smpteOffset hh mn se fr ff)
        else .error .invalidScannerState
      | _ => .error .invalidData
  else if status = 0x58 then
    match (Scanner.mk data 0).eatSlice 4 with
    | (none, _) => .error .invalidData
    | (some l, s1) =>
      match l with
      | [nn, dd, cc, bb] =>
        if s1.done then .ok (.timeSignature nn dd cc bb)
        else .error .invalidScannerState
      | _ => .error .invalidData
  else if status = 0x59 then
    match (Scanner.mk data 0).eat with
    | (none, _) => .error .invalidData
    | (some sf, s1) =>
      match s1.eat with
      | (none, _) => .error .invalidData
      | (some mm, s2) =>
        if s2.done then .ok (.keySignature sf mm)
        else .error .invalidScannerState
  else .error (.invalidStatus status)

/-! ### Claim C9: the meta-event decoder -/

/-- C9 counterexample: a meta event as produced by the track decoder —
status field `0xFF`, type byte `0x51` (SetTempo) and a 2-byte payload —
fails with `InvalidStatus 0xFF`, not with a data-shape error as the claim
requires for a fixed-shape type byte with a wrong payload length: the
decoder dispatches on the status field (pinned to `0xFF`), not on the type
byte. -/
theorem c9_counterexample :
    metaEventTryFrom ⟨0xFF, 0x51, 2, [0x00, 0x00]⟩ =
      .error (.invalidStatus 0xFF) := by
  rfl

/-- C9 (amended): `MetaEvent::try_from` dispatches on the `status` field of
the meta event file and ignores the `kind` (type byte) and `length` fields
entirely; a status outside the closed table fails with `InvalidStatus`
carrying that status byte; when the status field itself holds a table
value, the fixed-shape variants enforce their payload lengths by
re-scanning (too-short payloads give `InvalidNumber` for SequenceNumber and
`InvalidData` for the others, too-long payloads give
`InvalidScannerState`), except EndOfTrack (`0x2F`), which accepts a payload
of any length; the shape errors are distinct from the invalid-status
error. -/
theorem c9_meta_dispatch_and_shapes :
    (∀ st k k' len len' data, metaEventTryFrom ⟨st, k, len, data⟩ =
      metaEventTryFrom ⟨st, k', len', data⟩) ∧
    (∀ st k len data,
      st ≠ 0x00 ∧ st ≠ 0x01 ∧ ¬ (0x08 ≤ st ∧ st < 0x10) ∧ st ≠ 0x02 ∧
        st ≠ 0x03 ∧ st ≠ 0x04 ∧ st ≠ 0x05 ∧ st ≠ 0x06 ∧ st ≠ 0x07 ∧
        st ≠ 0x20 ∧ st ≠ 0x21 ∧ st ≠ 0x2F ∧ st ≠ 0x51 ∧ st ≠ 0x54 ∧
        st ≠ 0x58 ∧ st ≠ 0x59 →
      metaEventTryFrom ⟨st, k, len, data⟩ = .error (.invalidStatus st)) ∧
    (∀ k len data,
      metaEventTryFrom ⟨0x2F, k, len, data⟩ = .ok .endOfTrack) ∧
    ((∀ k len a b, metaEventTryFrom ⟨0x00, k, len, [a, b]⟩ =
        .ok (.sequenceNumber (a * 256 + b))) ∧
      (∀ k len data, data.length < 2 →
        metaEventTryFrom ⟨0x00, k, len, data⟩ = .error .invalidNumber) ∧
      (∀ k len a b c t, metaEventTryFrom ⟨0x00, k, len, a :: b :: c :: t⟩ =
        .error .invalidScannerState)) ∧
    ((∀ k len a, metaEventTryFrom ⟨0x20, k, len, [a]⟩ =
        .ok (.midiChannelPref a)) ∧
      (∀ k len, metaEventTryFrom ⟨0x20, k, len, []⟩ = .error .invalidData) ∧
      (∀ k len a b t, metaEventTryFrom ⟨0x20, k, len, a :: b :: t⟩ =
        .error .invalidScannerState)) ∧
    ((∀ k len a, metaEventTryFrom ⟨0x21, k, len, [a]⟩ = .ok (.midiPort a)) ∧
      (∀ k len, metaEventTryFrom ⟨0x21, k, len, []⟩ = .error .invalidData) ∧
      (∀ k len a b t, metaEventTryFrom ⟨0x21, k, len, a :: b :: t⟩ =
        .error .invalidScannerState)) ∧
    ((∀ k len a b c, metaEventTryFrom ⟨0x51, k, len, [a, b, c]⟩ =
        .ok (.setTempo (a * 65536 + b * 256 + c))) ∧
      (∀ k len data, data.length < 3 →
        metaEventTryFrom ⟨0x51, k, len, data⟩ = .error .invalidData) ∧
      (∀ k len d0 d1 d2 d3 t,
        metaEventTryFrom ⟨0x51, k, len, d0 :: d1 :: d2 :: d3 :: t⟩ =
          .error .invalidScannerState)) ∧
    ((∀ k len a b c d e, metaEventTryFrom ⟨0x54, k, len, [a, b, c, d, e]⟩ =
        .ok (.smpteOffset a b c d e)) ∧
      (∀ k len data, data.length < 5 →
        metaEventTryFrom ⟨0x54, k, len, data⟩ = .error .invalidData) ∧
      (∀ k len d0 d1 d2 d3 d4 d5 t,
        metaEventTryFrom ⟨0x54, k, len, d0 :: d1 :: d2 :: d3 :: d4 :: d5 :: t⟩ =
          .error .invalidScannerState)) ∧
    ((∀ k len a b c d, metaEventTryFrom ⟨0x58, k, len, [a, b, c, d]⟩ =
        .ok (.timeSignature a b c d)) ∧
      (∀ k len data, data.length < 4 →
        metaEventTryFrom ⟨0x58, k, len, data⟩ = .error .invalidData) ∧
      (∀ k len d0 d1 d2 d3 d4 t,
        metaEventTryFrom ⟨0x58, k, len, d0 :: d1 :: d2 :: d3 :: d4 :: t⟩ =
          .error .invalidScannerState)) ∧
    ((∀ k len a b, metaEventTryFrom ⟨0x59, k, len, [a, b]⟩ =
        .ok (.keySignature a b)) ∧
      (∀ k len data, data.length < 2 →
        metaEventTryFrom ⟨0x59, k, len, data⟩ = .error .invalidData) ∧
      (∀ k len a b c t, metaEventTryFrom ⟨0x59, k, len, a :: b :: c :: t⟩ =
        .error .invalidScannerState)) ∧
    (∀ b, MetaError.invalidNumber ≠ MetaError.invalidStatus b ∧
      MetaError.invalidData ≠ MetaError.invalidStatus b ∧
      MetaError.invalidScannerState ≠ MetaError.invalidStatus b) := by
  refine ⟨fun st k k' len len' data => rfl, ?_, fun k len data => rfl,
    ⟨fun k len a b => rfl, ?_, fun k len a b c t => rfl⟩,
    ⟨fun k len a => rfl, fun k len => rfl, fun k len a b t => rfl⟩,
    ⟨fun k len a => rfl, fun k len => rfl, fun k len a b t => rfl⟩,
    ⟨fun k len a b c => rfl, ?_, fun k len d0 d1 d2 d3 t => rfl⟩,
    ⟨fun k len a b c d e => rfl, ?_, fun k len d0 d1 d2 d3 d4 d5 t => rfl⟩,
    ⟨fun k len a b c d => rfl, ?_, fun k len d0 d1 d2 d3 d4 t => rfl⟩,
    ⟨fun k len a b => rfl, ?_, fun k len a b c t => rfl⟩,
    fun b => ⟨by simp, by simp, by simp⟩⟩
  · intro st k len data hst
    obtain ⟨h00, h01, htx, h02, h03, h04, h05, h06, h07, h20, h21, h2F,
      h51, h54, h58, h59⟩ := hst
    unfold metaEventTryFrom
    dsimp only
    rw [if_neg h00, if_neg (fun hc => hc.elim h01 htx), if_neg h02,
      if_neg h03, if_neg h04, if_neg h05, if_neg h06, if_neg h07,
      if_neg h20, if_neg h21, if_neg h2F, if_neg h51, if_neg h54,
      if_neg h58, if_neg h59]
  · intro k len data h
    rcases data with _ | ⟨a, _ | ⟨b, t⟩⟩
    · rfl
    · rfl
    · simp only [List.length_cons] at h; omega
  · intro k len data h
    rcases data with _ | ⟨a, _ | ⟨b, _ | ⟨c, t⟩⟩⟩
    · rfl
    · rfl
    · rfl
    · simp only [List.length_cons] at h; omega
  · intro k len data h
    rcases data with _ | ⟨a, _ | ⟨b, _ | ⟨c, _ | ⟨d, _ | ⟨e, t⟩⟩⟩⟩⟩
    · rfl
    · rfl
    · rfl
    · rfl
    · rfl
    · simp only [List.length_cons] at h; omega
  · intro k len data h
    rcases data with _ | ⟨a, _ | ⟨b, _ | ⟨c, _ | ⟨d, t⟩⟩⟩⟩
    · rfl
    · rfl
    · rfl
    · rfl
    · simp only [List.length_cons] at h; omega
  · intro k len data h
    rcases data with _ | ⟨a, _ | ⟨b, t⟩⟩
    · rfl
    · rfl
    · simp only [List.length_cons] at h; omega

/-- C9 witness: the amended theorem applied at a SetTempo payload of
exactly 3 bytes (`0x07 0xA1 0x20`, 500000 µs per quarter note), at the
untabled status `0x7E`, and at an EndOfTrack with a 2-byte payload. -/
theorem c9_meta_dispatch_and_shapes_witness :
    metaEventTryFrom ⟨0x51, 0x51, 3, [0x07, 0xA1, 0x20]⟩ =
      .ok (.setTempo 500000) ∧
    metaEventTryFrom ⟨0x7E, 0x51, 0, []⟩ = .error (.invalidStatus 0x7E) ∧
    metaEventTryFrom ⟨0x2F, 0x2F, 2, [0x00, 0x00]⟩ = .ok .endOfTrack := by
  have hw := (c9_meta_dispatch_and_shapes.2.2.2.2.2.2.1).1 0x51 3
    0x07 0xA1 0x20
  exact ⟨by simpa using hw,
    (c9_meta_dispatch_and_shapes.2.1) 0x7E 0x51 0 [] (by omega),
    (c9_meta_dispatch_and_shapes.2.2.1) 0x2F 2 [0x00, 0x00]⟩

/-! ### Claim C10: the byte cursor -/

/-- C10: every scanner operation is total and bounds-safe: under the
invariant `cursor ≤ length` each operation preserves the byte slice and the
invariant; `peek` and `eat` report absence exactly when the scanner is
exhausted, `eat_slice` exactly when fewer than `n` bytes remain (and then
leaves the scanner unchanged); the VLQ read advances the cursor by at most
4 and stays in bounds; `eat_data_bytes` always succeeds and stays in
bounds. -/
theorem c10_scanner_total_and_safe (s : Scanner) (n : Nat)
    (hinv : s.cursor ≤ s.bytes.length) :
    (s.peek = none ↔ s.cursor = s.bytes.length) ∧
    ((s.eat).2.bytes = s.bytes ∧ (s.eat).2.cursor ≤ s.bytes.length ∧
      ((s.eat).1 = none ↔ s.cursor = s.bytes.length) ∧
      ((s.eat).1 = none → (s.eat).2 = s)) ∧
    ((s.eatSlice n).2.bytes = s.bytes ∧
      (s.eatSlice n).2.cursor ≤ s.bytes.length ∧
      ((s.eatSlice n).1 = none ↔ s.bytes.length < s.cursor + n) ∧
      ((s.eatSlice n).1 = none → (s.eatSlice n).2 = s)) ∧
    ((s.eatVLQ).2.bytes = s.bytes ∧ (s.eatVLQ).2.cursor ≤ s.bytes.length ∧
      (s.eatVLQ).2.cursor ≤ s.cursor + 4) ∧
    ((s.eatDataBytes).2.bytes = s.bytes ∧
      (s.eatDataBytes).2.cursor ≤ s.bytes.length ∧
      (s.eatDataBytes).1 ≠ none) := by
  refine ⟨by rw [s.peek_eq_none_iff]; omega, ?_, ?_, ?_, ?_⟩
  · cases hp : s.peek with
    | none =>
      have he : s.eat = (none, s) := by unfold Scanner.eat; rw [hp]
      rw [he]
      have := s.peek_eq_none_iff.mp hp
      exact ⟨rfl, hinv, by simp; omega, fun _ => rfl⟩
    | some b =>
      rw [s.eat_of_peek b hp]
      have hlt : ¬ s.bytes.length ≤ s.cursor := fun hle =>
        by rw [s.peek_eq_none_iff.mpr hle] at hp; exact Option.noConfusion hp
      exact ⟨rfl, by simp; omega, by simp; omega, fun hf => by simp at hf⟩
  · unfold Scanner.eatSlice
    split
    · rename_i hle
      exact ⟨rfl, hle, by simp; omega, fun hf => by simp at hf⟩
    · rename_i hgt
      exact ⟨rfl, hinv, by simp; omega, fun _ => rfl⟩
  · cases hr : s.eatVLQ with
    | mk o s' =>
      obtain ⟨h1, h2, _, h4⟩ := Scanner.eatVLQAux_state 4 0 s o s' hr
      exact ⟨h1, h4 hinv, h2⟩
  · refine ⟨rfl, ?_, by simp [Scanner.eatDataBytes]⟩
    have h1 := dataRun_length_le s.after
    have h2 : s.after.length = s.bytes.length - s.cursor := by
      simp [Scanner.after]
    simp only [Scanner.eatDataBytes]
    omega

/-- C10 witness: the theorem applied to the concrete scanner over
`[0x10, 0x80]` at cursor 1 with `n = 5`. -/
theorem c10_scanner_total_and_safe_witness :
    ((Scanner.mk [0x10, 0x80] 1).peek = none ↔ (1 : Nat) = 2) ∧
    (((Scanner.mk [0x10, 0x80] 1).eat).2.bytes = [0x10, 0x80] ∧
      ((Scanner.mk [0x10, 0x80] 1).eat).2.cursor ≤ 2 ∧
      (((Scanner.mk [0x10, 0x80] 1).eat).1 = none ↔ (1 : Nat) = 2) ∧
      (((Scanner.mk [0x10, 0x80] 1).eat).1 = none →
        ((Scanner.mk [0x10, 0x80] 1).eat).2 = Scanner.mk [0x10, 0x80] 1)) ∧
    (((Scanner.mk [0x10, 0x80] 1).eatSlice 5).2.bytes = [0x10, 0x80] ∧
      ((Scanner.mk [0x10, 0x80] 1).eatSlice 5).2.cursor ≤ 2 ∧
      (((Scanner.mk [0x10, 0x80] 1).eatSlice 5).1 = none ↔ 2 < 1 + 5) ∧
      (((Scanner.mk [0x10, 0x80] 1).eatSlice 5).1 = none →
        ((Scanner.mk [0x10, 0x80] 1).eatSlice 5).2 =
          Scanner.mk [0x10, 0x80] 1)) ∧
    (((Scanner.mk [0x10, 0x80] 1).eatVLQ).2.bytes = [0x10, 0x80] ∧
      ((Scanner.mk [0x10, 0x80] 1).eatVLQ).2.cursor ≤ 2 ∧
      ((Scanner.mk [0x10, 0x80] 1).eatVLQ).2.cursor ≤ 1 + 4) ∧
    (((Scanner.mk [0x10, 0x80] 1).eatDataBytes).2.bytes = [0x10, 0x80] ∧
      ((Scanner.mk [0x10, 0x80] 1).eatDataBytes).2.cursor ≤ 2 ∧
      ((Scanner.mk [0x10, 0x80] 1).eatDataBytes).1 ≠ none) :=
  c10_scanner_total_and_safe (Scanner.mk [0x10, 0x80] 1) 5 (by decide)

end Relocate
